import Mathlib

/-!
Shallow embedding of the simulation core of the js13k-2021 game
("Escape from Ganymede").  The JavaScript source keeps all world state in
global mutable maps; here that state is packaged into explicit `World`
values and every system is a pure state-transformer.  JS numbers are
modelled as exact rationals (`ℚ`); the code under verification performs
only +, -, *, /, min, max, floor and comparisons on them, so `ℚ` is a
faithful carrier for every execution that stays clear of floating-point
rounding (the concrete scenarios below use short decimal fractions where
double rounding does not change any branch).  JS `Map`s are modelled as
insertion-ordered association lists.
-/

namespace Ganymede

/-- Association-list lookup, mirroring `Map.get` (first matching key;
JS `Map` keys are unique). -/
def alist_get {κ α : Type} [DecidableEq κ] : List (κ × α) → κ → Option α
  | [], _ => none
  | p :: t, id => if p.1 = id then some p.2 else alist_get t id

/-- Association-list write, mirroring `Map.set`: overwrite the entry in
place if the key is present, otherwise append. -/
def alist_set {κ α : Type} [DecidableEq κ] : List (κ × α) → κ → α → List (κ × α)
  | [], id, v => [(id, v)]
  | p :: t, id, v => if p.1 = id then (id, v) :: t else p :: alist_set t id v

/-- Association-list delete, mirroring `Map.delete`. -/
def alist_erase {κ α : Type} [DecidableEq κ] : List (κ × α) → κ → List (κ × α)
  | [], _ => []
  | p :: t, id => if p.1 = id then alist_erase t id else p :: alist_erase t id

/-- Inclusive integer range `[lo, lo+1, ..., hi]`, the index set of a JS
`for (let i = lo; i <= hi; i++)` loop. -/
def int_range (lo hi : ℤ) : List ℤ :=
  (List.range (hi + 1 - lo).toNat).map (fun i => lo + i)

/-- Source `idx` (part_002:444): convert an X,Y coordinate into a grid
index, given a grid width. -/
def idx (x y w : ℤ) : ℤ :=
  y * w + x

/-- Source `sign` (part_002:663): the sign of a number. -/
def sign (n : ℚ) : ℚ :=
  if n > 0 then 1 else if n = 0 then 0 else -1

/-- Source `hash_ids` (part_002:668): hash two IDs into one number,
order-independently.  `idx(a, b, 100) = b * 100 + a`, so the hash is
`max * 100 + min`. -/
def hash_ids (a b : Nat) : Nat :=
  if a < b then b * 100 + a else a * 100 + b

/-- Reading `map_tiles[i]`: a `Uint8Array` read at a negative or
too-large index yields `undefined`, and both `undefined > 0` and
`undefined !== 0` comparisons below treat it like a wall/empty exactly as
each call site does; physics only uses `> 0`, for which `undefined`
behaves like `0`. -/
def tiles_get (tiles : List Nat) (i : ℤ) : Nat :=
  if 0 ≤ i then tiles.getD i.toNat 0 else 0

/-- JS object `{x, y, w, h}` as used for bounding boxes. -/
structure Rect where
  x : ℚ
  y : ℚ
  w : ℚ
  h : ℚ
deriving DecidableEq, Repr

/-- Position component `pos` (`{x, y, f}`). -/
structure Pos where
  x : ℚ
  y : ℚ
  f : ℚ
deriving DecidableEq, Repr

/-- Physics body component `body`.  `t = 1` marks a trigger; in JS the
field is absent (`undefined !== 1`) for non-triggers, modelled as `0`.
`e` is the environment-collision flag, `c` the contact list, `bb` the
derived bounding box (created on first `update_bounding_box`; modelled as
always present, initially junk). -/
structure Body where
  w : ℚ
  h : ℚ
  vx : ℚ
  vy : ℚ
  b : ℚ
  g : Nat
  t : Nat
  e : Nat
  c : List Nat
  bb : Rect
deriving DecidableEq, Repr

/-- Mortal component `mor` (`{h}`: hit points). -/
structure Mortal where
  h : ℚ
deriving DecidableEq, Repr

/-- Hazard component `haz` (`{d, o}`: damage, one-shot flag). -/
structure Hazard where
  d : ℚ
  o : Nat
deriving DecidableEq, Repr

/-- Source `rect_overlap` (part_002:684). -/
def rect_overlap (a b : Rect) : Bool :=
  decide (a.x < b.x + b.w) && decide (a.x + a.w > b.x) &&
    decide (a.y < b.y + b.h) && decide (a.y + a.h > b.y)

/-- Source `rect_intersection` (part_002:691); the `out` parameter is
modelled by returning the written rectangle. -/
def rect_intersection (a b : Rect) : Rect :=
  let x1 := min (a.x + a.w) (b.x + b.w)
  let x2 := max a.x b.x
  let y1 := min (a.y + a.h) (b.y + b.h)
  let y2 := max a.y b.y
  { x := min x1 x2, y := min y1 y2, w := max 0 (x1 - x2), h := max 0 (y1 - y2) }

/-- Source `update_bounding_box` (part_002:672). -/
def update_bounding_box (pos : Pos) (body : Body) : Body :=
  { body with bb := { x := pos.x - body.w / 2, y := pos.y - body.h / 2, w := body.w, h := body.h } }

/-- Collision group constants (part_002:35-37). -/
def GROUP_PLAYER : Nat := 1
def GROUP_ENEMY : Nat := 2
def GROUP_ENVIRONMENT : Nat := 3

/-- Source `COLLISION_GROUPS` (part_002:41): the key set of the JS `Map`
(every stored value is `1`; only `.has` is ever called on it). -/
def COLLISION_GROUPS : List Nat :=
  [hash_ids GROUP_PLAYER GROUP_ENEMY,
   hash_ids GROUP_ENEMY GROUP_ENEMY,
   hash_ids GROUP_PLAYER GROUP_ENVIRONMENT,
   hash_ids GROUP_ENEMY GROUP_ENVIRONMENT,
   hash_ids GROUP_ENVIRONMENT GROUP_ENVIRONMENT]

/-- Source `SPATIAL_TILE_SIZE` (part_002:30). -/
def SPATIAL_TILE_SIZE : ℚ := 2

/-- The global mutable simulation state touched by the physics, hazard
and mortality systems: map grid, spatial hash and the component maps. -/
structure World where
  map_width : ℤ
  map_height : ℤ
  map_tiles : List Nat
  spatial_width : ℤ
  spatial_tiles : List (List Nat)
  bodies : List (Nat × Body)
  positions : List (Nat × Pos)
  mortals : List (Nat × Mortal)
  hazards : List (Nat × Hazard)
deriving DecidableEq, Repr

/-- Source `clear_spatial_map` (part_002:562): empty every bucket. -/
def clear_spatial_map (w : World) : World :=
  { w with spatial_tiles := List.replicate w.spatial_tiles.length [] }

/-- Source `insert_spatial_bounds` (part_002:569).  JS only guards
`index < spatial_tiles.length`; a negative index would crash
(`undefined.push`), which is unreachable for clamped bodies, so the
model skips it. -/
def insert_spatial_bounds (id : Nat) (bb : Rect) (w : World) : World :=
  let ox := ⌊bb.x / SPATIAL_TILE_SIZE⌋
  let oy := ⌊bb.y / SPATIAL_TILE_SIZE⌋
  let tx := ⌊(bb.x + bb.w) / SPATIAL_TILE_SIZE⌋
  let ty := ⌊(bb.y + bb.h) / SPATIAL_TILE_SIZE⌋
  let tiles := (int_range oy ty).foldl (fun acc y =>
    (int_range ox tx).foldl (fun acc x =>
      let index := idx x y w.spatial_width
      if 0 ≤ index ∧ index < (acc : List (List Nat)).length then
        acc.set index.toNat (acc.getD index.toNat [] ++ [id])
      else acc) acc) w.spatial_tiles
  { w with spatial_tiles := tiles }

/-- Source `get_spatial_neighbors` (part_002:585). -/
def get_spatial_neighbors (bb : Rect) (w : World) : List Nat :=
  let ox := ⌊bb.x / SPATIAL_TILE_SIZE⌋
  let oy := ⌊bb.y / SPATIAL_TILE_SIZE⌋
  let tx := ⌊(bb.x + bb.w) / SPATIAL_TILE_SIZE⌋
  let ty := ⌊(bb.y + bb.h) / SPATIAL_TILE_SIZE⌋
  (int_range oy ty).foldl (fun acc y =>
    (int_range ox tx).foldl (fun acc x =>
      let index := idx x y w.spatial_width
      if 0 ≤ index ∧ index < w.spatial_tiles.length then
        acc ++ w.spatial_tiles.getD index.toNat []
      else acc) acc) []

/-- The map-bounds clamp of `system_physics` (part_002:888-905), split
out as a function of the map size and the body. -/
def clamp_body_to_map (mw mh : ℤ) (body : Body) : Body :=
  let b1 :=
    if body.bb.x < 0 then
      { body with bb := { body.bb with x := 0 }, vx := body.vx * (-body.b), e := 1 }
    else if body.bb.x + body.bb.w ≥ (mw : ℚ) then
      { body with bb := { body.bb with x := (mw : ℚ) - body.bb.w },
                  vx := body.vx * (-body.b), e := 1 }
    else body
  if b1.bb.y < 0 then
    { b1 with bb := { b1.bb with y := 0 }, vy := b1.vy * (-b1.b), e := 1 }
  else if b1.bb.y + b1.bb.h ≥ (mh : ℚ) then
    { b1 with bb := { b1.bb with y := (mh : ℚ) - b1.bb.h },
              vy := b1.vy * (-b1.b), e := 1 }
  else b1

/-- One entry of the `tiles` overlap list built at part_002:896-909. -/
structure TileHit where
  x : ℤ
  y : ℤ
  a : ℚ
deriving DecidableEq, Repr

/-- Insert a tile hit into a list sorted by descending area, before the
first strictly smaller entry (so equal areas keep their original order). -/
def insert_by_area (t : TileHit) : List TileHit → List TileHit
  | [] => [t]
  | u :: rest => if u.a ≤ t.a then t :: u :: rest else u :: insert_by_area t rest

/-- The stable descending-by-area sort `tiles.sort((a, b) => b.a - a.a)`
(part_002:915); JS `Array.sort` is stable, matched here by a stable
insertion sort. -/
def sort_by_area : List TileHit → List TileHit
  | [] => []
  | t :: rest => insert_by_area t (sort_by_area rest)

/-- The unit square of map tile `(x, y)` (`tile_bb`, part_002:440). -/
def tile_rect (x y : ℤ) : Rect :=
  { x := (x : ℚ), y := (y : ℚ), w := 1, h := 1 }

/-- One step of the tile-resolution loop (part_002:918-936). -/
def resolve_tile (body : Body) (t : TileHit) : Body :=
  let temp := rect_intersection body.bb (tile_rect t.x t.y)
  if temp.w * temp.h > 0 then
    if temp.w < temp.h then
      let sx := sign (body.bb.x + body.bb.w / 2 - (temp.x + temp.w / 2))
      { body with bb := { body.bb with x := body.bb.x + temp.w * sx },
                  vx := body.vx * (-body.b) }
    else
      let sy := sign (body.bb.y + body.bb.h / 2 - (temp.y + temp.h / 2))
      { body with bb := { body.bb with y := body.bb.y + temp.h * sy },
                  vy := body.vy * (-body.b) }
  else body

/-- The wall-tile detection and resolution of `system_physics`
(part_002:887-937) on an already clamped body: enumerate overlapped wall
tiles with their overlap areas, set the terrain flag when any exist,
sort by descending area (only when more than one, as in the source) and
fold the per-tile resolution. -/
def phys_tile_resolve (w : World) (body3 : Body) : Body :=
  let ox := ⌊body3.bb.x⌋
  let oy := ⌊body3.bb.y⌋
  let tx := ⌊body3.bb.x + body3.bb.w⌋
  let ty := ⌊body3.bb.y + body3.bb.h⌋
  let hits := (int_range oy ty).foldl (fun acc y =>
    (int_range ox tx).foldl (fun acc x =>
      if tiles_get w.map_tiles (idx x y w.map_width) > 0 then
        let temp := rect_intersection body3.bb (tile_rect x y)
        acc ++ [({ x := x, y := y, a := temp.w * temp.h } : TileHit)]
      else acc) acc) []
  let body4 := if hits.isEmpty then body3 else { body3 with e := 1 }
  let sorted := if hits.length > 1 then sort_by_area hits else hits
  sorted.foldl resolve_tile body4

/-- The per-body half of `system_physics` (part_002:876-945): reset
flags, integrate, recompute the bbox, clamp to the map, resolve
wall-tile overlaps, sync position back from the bounding box and insert
into the spatial hash.  A body without a position would crash in JS; the
model leaves the world unchanged (unreachable under the store
invariant). -/
def phys_move_body (dt : ℚ) (w : World) (id : Nat) : World :=
  match alist_get w.bodies id, alist_get w.positions id with
  | some body0, some pos0 =>
    let body1 : Body := { body0 with e := 0, c := [] }
    let pos1 : Pos := { pos0 with x := pos0.x + body1.vx * dt, y := pos0.y + body1.vy * dt }
    let body5 := phys_tile_resolve w
      (clamp_body_to_map w.map_width w.map_height (update_bounding_box pos1 body1))
    let pos2 : Pos := { pos1 with x := body5.bb.x + body5.w / 2, y := body5.bb.y + body5.h / 2 }
    let w1 := { w with bodies := alist_set w.bodies id body5,
                       positions := alist_set w.positions id pos2 }
    insert_spatial_bounds id body5.bb w1
  | _, _ => w

/-- First half of `system_physics` (part_002:869-945): clear the spatial
hash, then run the per-body pass over the bodies map in insertion
order. -/
def phys_phase1 (dt : ℚ) (w : World) : World :=
  let w0 := clear_spatial_map w
  (w0.bodies.map Prod.fst).foldl (phys_move_body dt) w0

/-- State of the pair-finding loop (part_002:948-950): the evolving
world plus the `pairs` and `checked` arrays.  `trace` is a ghost field
recording, in order, each `(id, neighbor_id)` pair that reaches the
narrow-phase evaluation (everything after the `checked` dedup); the JS
code has no such array and no definition below ever reads it. -/
structure NarrowS where
  w : World
  pairs : List (Nat × Nat)
  checked : List Nat
  trace : List (Nat × Nat)

/-- Append `nid` to the contact list of body `id` (`body.c.push`). -/
def push_contact (w : World) (id nid : Nat) : World :=
  match alist_get w.bodies id with
  | some b => { w with bodies := alist_set w.bodies id { b with c := b.c ++ [nid] } }
  | none => w

/-- Body of the inner neighbor loop (part_002:952-972). -/
def narrow_neighbor (id : Nat) (s : NarrowS) (nid : Nat) : NarrowS :=
  if nid = id then s
  else
    let hash := hash_ids id nid
    if s.checked.contains hash then s
    else
      let s1 : NarrowS := { s with checked := s.checked ++ [hash], trace := s.trace ++ [(id, nid)] }
      match alist_get s1.w.bodies nid, alist_get s1.w.bodies id with
      | some nb, some b =>
        if COLLISION_GROUPS.contains (hash_ids b.g nb.g) && rect_overlap b.bb nb.bb then
          let w1 := push_contact (push_contact s1.w id nid) nid id
          let pairs1 := if b.t ≠ 1 ∧ nb.t ≠ 1 then s1.pairs ++ [(id, nid)] else s1.pairs
          { s1 with w := w1, pairs := pairs1 }
        else s1
      | _, _ => s1

/-- Body of the outer pair-finding loop (part_002:950-973). -/
def narrow_body (s : NarrowS) (id : Nat) : NarrowS :=
  match alist_get s.w.bodies id with
  | some body => (get_spatial_neighbors body.bb s.w).foldl (narrow_neighbor id) s
  | none => s

/-- The pair-finding phase of `system_physics` (part_002:947-974). -/
def phys_phase2 (w : World) : NarrowS :=
  (w.bodies.map Prod.fst).foldl narrow_body { w := w, pairs := [], checked := [], trace := [] }

/-- One step of the pair-resolution loop (part_002:977-1003).  Both
`+=` updates read the pre-assignment coordinates, as in JS.  Missing
components would crash in JS; the model leaves the world unchanged. -/
def resolve_pair (w : World) (p : Nat × Nat) : World :=
  match alist_get w.bodies p.1, alist_get w.bodies p.2,
        alist_get w.positions p.1, alist_get w.positions p.2 with
  | some body_a, some body_b, some pos_a, some pos_b =>
    let temp := rect_intersection body_a.bb body_b.bb
    if temp.w < temp.h then
      let hw := temp.w / 2
      let ix := temp.x + hw
      let pa : Pos := { pos_a with x := pos_a.x + hw * sign (pos_a.x - ix) }
      let pb : Pos := { pos_b with x := pos_b.x + hw * sign (pos_b.x - ix) }
      let ba := update_bounding_box pa { body_a with vx := body_a.vx * (-body_a.b) }
      let bb2 := update_bounding_box pb { body_b with vx := body_b.vx * (-body_b.b) }
      { w with positions := alist_set (alist_set w.positions p.1 pa) p.2 pb,
               bodies := alist_set (alist_set w.bodies p.1 ba) p.2 bb2 }
    else
      let hh := temp.h / 2
      let iy := temp.y + hh
      let pa : Pos := { pos_a with y := pos_a.y + hh * sign (pos_a.y - iy) }
      let pb : Pos := { pos_b with y := pos_b.y + hh * sign (pos_b.y - iy) }
      let ba := update_bounding_box pa { body_a with vy := body_a.vy * (-body_a.b) }
      let bb2 := update_bounding_box pb { body_b with vy := body_b.vy * (-body_b.b) }
      { w with positions := alist_set (alist_set w.positions p.1 pa) p.2 pb,
               bodies := alist_set (alist_set w.bodies p.1 ba) p.2 bb2 }
  | _, _, _, _ => w

/-- Source `system_physics` (part_002:868-1004).  The JS early-return
for a never-created bodies map is the identity on the modelled state. -/
def system_physics (dt : ℚ) (w : World) : World :=
  let w1 := phys_phase1 dt w
  let s2 := phys_phase2 w1
  s2.pairs.foldl resolve_pair s2.w

/-- Source `remove_entity` (part_002:637): delete the id from every
component mapping. -/
def remove_entity (w : World) (id : Nat) : World :=
  { w with bodies := alist_erase w.bodies id,
           positions := alist_erase w.positions id,
           mortals := alist_erase w.mortals id,
           hazards := alist_erase w.hazards id }

/-- Loop body of `system_hazard` (part_002:1013-1026): damage the first
contact's mortal if present, then despawn the hazard when it is one-shot
and touched terrain or anything.  A hazard without a body would crash in
JS; the model leaves the world unchanged. -/
def hazard_step (w : World) (id : Nat) : World :=
  match alist_get w.hazards id, alist_get w.bodies id with
  | some hazard, some body =>
    let w1 :=
      match body.c with
      | contact_id :: _ =>
        match alist_get w.mortals contact_id with
        | some mortal =>
          { w with mortals := alist_set w.mortals contact_id { h := mortal.h - hazard.d } }
        | none => w
      | [] => w
    if hazard.o = 1 ∧ (body.e = 1 ∨ body.c ≠ []) then remove_entity w1 id else w1
  | _, _ => w

/-- Source `system_hazard` (part_002:1007-1028).  Iterating the JS `Map`
while only ever deleting the entry being visited is equivalent to
folding over a snapshot of the keys. -/
def system_hazard (w : World) : World :=
  (w.hazards.map Prod.fst).foldl hazard_step w

/-- A behavior state object (`state_idle`, `state_wander`, ...): JS
compares these by object identity, modelled by a distinguishing `sid`
tag; the optional `e`/`x`/`u` hooks are world-mutating closures, modelled
as opaque action tags collected into a trace by the tick. -/
structure BState where
  sid : Nat
  e : Option Nat
  x : Option Nat
  u : Option Nat
deriving DecidableEq, Repr

/-- A transition rule `{f, d?, c?, t}` of a behavior model
(part_002:116-170): from-state, optional duration, optional predicate,
to-state. -/
structure BTrans where
  f : BState
  d : Option ℚ
  c : Option (Nat → Bool)
  t : BState

/-- A behavior model `{i, t?}`: initial state and optional transition
list. -/
structure BModel where
  i : BState
  t : Option (List BTrans)

/-- The `beh` component `{s?, e}`: current state (absent before the
first tick) and elapsed seconds in that state. -/
structure BehC where
  s : Option BState
  e : ℚ
deriving Repr

/-- Run an optional hook: the trace of firing it. -/
def opt_run (a : Option Nat) : List Nat :=
  match a with
  | some k => [k]
  | none => []

/-- Transition condition (part_002:1260-1262):
`(d !== undefined && e >= d) || (c !== undefined && c(id))`. -/
def trans_cond (tr : BTrans) (e : ℚ) (id : Nat) : Bool :=
  (match tr.d with
   | some d => decide (e ≥ d)
   | none => false) ||
  (match tr.c with
   | some c => c id
   | none => false)

/-- The transition scan of `system_behavior` (part_002:1254-1283):
first rule whose from-state is the current state and whose condition
holds fires (exit hook, new state, elapsed reset to 0, enter hook) and
the loop `break`s; returns (state, elapsed, hook trace). -/
def scan_transitions (id : Nat) (s : BState) (e : ℚ) : List BTrans → BState × ℚ × List Nat
  | [] => (s, e, [])
  | tr :: rest =>
    if tr.f ≠ s then scan_transitions id s e rest
    else if trans_cond tr e id then (tr.t, 0, opt_run s.x ++ opt_run tr.t.e)
    else scan_transitions id s e rest

/-- The per-entity tick of `system_behavior` (part_002:1237-1289):
initialize the state if unset (running its enter hook), accumulate
elapsed time, scan the transitions, then run the current state's update
hook.  Returns the updated component and the hook trace in firing
order. -/
def behavior_tick (model : BModel) (id : Nat) (b : BehC) (dt : ℚ) : BehC × List Nat :=
  let init :=
    match b.s with
    | none => (model.i, (0 : ℚ), opt_run model.i.e)
    | some s => (s, b.e, ([] : List Nat))
  let e1 := init.2.1 + dt
  let scanned :=
    match model.t with
    | some ts => scan_transitions id init.1 e1 ts
    | none => (init.1, e1, ([] : List Nat))
  ({ s := some scanned.1, e := scanned.2.1 }, init.2.2 ++ scanned.2.2 ++ opt_run scanned.1.u)

/-- A component record attached to an entity.  Only the `pos` record's
shape matters to the spawn-override claim; every other component kind is
an opaque payload. -/
inductive CompData where
  | pos (p : Pos)
  | other (tag : Nat)
deriving DecidableEq, Repr

/-- The global `components` store: component kind → (entity id →
record). -/
def Store : Type := List (String × List (Nat × CompData))

/-- Source `add_entity_component` (part_002:620): create the kind's map
on first use, then `group.set(id, data)`. -/
def add_entity_component (st : Store) (id : Nat) (key : String) (data : CompData) : Store :=
  match alist_get st key with
  | some group => alist_set st key (alist_set group id data)
  | none => alist_set st key (alist_set ([] : List (Nat × CompData)) id data)

/-- Source `get_entity_component` (part_002:630). -/
def get_entity_component (st : Store) (id : Nat) (key : String) : Option CompData :=
  match alist_get st key with
  | some group => alist_get group id
  | none => none

/-- JS `a || b` restricted to numbers: `0` is falsy, everything else
truthy (of the other falsy doubles, `-0` equals `0` in `ℚ` and `NaN`
cannot arise from the spawn call sites). -/
def jsOr (a b : ℚ) : ℚ :=
  if a = 0 then b else a

/-- Source `spawn_prefab_entity` (part_002:603-617): copy every prefab
component onto a fresh id, then apply the position/facing overrides with
`pos.x = x || pos.x` and friends.  The fresh id `next_entity_id++` is
passed explicitly; `Object.assign({}, data)` is a copy, which value
semantics gives for free.  The override writes mutate the stored `pos`
record, modelled by writing the record back. -/
def spawn_prefab_entity (prefab : List (String × CompData)) (id : Nat) (x y facing : ℚ)
    (st : Store) : Store :=
  let st1 := prefab.foldl (fun acc kv => add_entity_component acc id kv.1 kv.2) st
  match get_entity_component st1 id "pos" with
  | some (CompData.pos p) =>
    add_entity_component st1 id "pos"
      (CompData.pos { x := jsOr x p.x, y := jsOr y p.y, f := jsOr facing p.f })
  | _ => st1

/-- Result record of `raycast` (part_002:708): perpendicular distance,
hit side, tile value. -/
structure RayResult where
  d : ℚ
  s : Nat
  v : Nat
deriving DecidableEq, Repr

/-- The mutable locals of the DDA loop in `raycast`: current cell, the
two accumulated side distances and the side flag. -/
structure DDAState where
  x : ℤ
  y : ℤ
  sdx : ℚ
  sdy : ℚ
  side : Nat
deriving DecidableEq, Repr

/-- One jump of the DDA loop (part_002:744-753): advance along whichever
axis has the smaller accumulated side distance. -/
def dda_step (step_x step_y : ℤ) (ddx ddy : ℚ) (st : DDAState) : DDAState :=
  if st.sdx < st.sdy then { st with sdx := st.sdx + ddx, x := st.x + step_x, side := 0 }
  else { st with sdy := st.sdy + ddy, y := st.y + step_y, side := 1 }

/-- The in-map test of the DDA loop (part_002:755). -/
def dda_in_bounds (mw mh : ℤ) (st : DDAState) : Bool :=
  decide (0 ≤ st.x) && decide (st.x < mw) && decide (0 ≤ st.y) && decide (st.y < mh)

/-- The `while (!hit)` loop of `raycast` (part_002:743-767), with an
explicit fuel that the termination theorem shows sufficient: step, then
either hit a non-zero in-map tile (return its value), or leave the map
(implicit wall, value 1), or continue. -/
def dda_loop (mw mh : ℤ) (tiles : List Nat) (step_x step_y : ℤ) (ddx ddy : ℚ) :
    Nat → DDAState → Option (DDAState × Nat)
  | 0, _ => none
  | fuel + 1, st =>
    let st1 := dda_step step_x step_y ddx ddy st
    if dda_in_bounds mw mh st1 then
      let value := tiles_get tiles (idx st1.x st1.y mw)
      if value ≠ 0 then some (st1, value)
      else dda_loop mw mh tiles step_x step_y ddx ddy fuel st1
    else some (st1, 1)

/-- Number of steps before the traversal must leave the map along each
axis, plus one: an upper bound on the DDA loop's iteration count. -/
def dda_fuel (mw mh step_x step_y : ℤ) (st : DDAState) : Nat :=
  (if step_x < 0 then (st.x + 1).toNat else (mw - st.x).toNat) +
    (if step_y < 0 then (st.y + 1).toNat else (mh - st.y).toNat) + 1

/-- Source `raycast` (part_002:707-775).  `delta_dist_x/y` are
`Math.sqrt(1 + (dy/dx)^2)`-style irrationals, taken here as parameters
`ddx`/`ddy`: no theorem below depends on their values, only on the
branch structure they select, so quantifying over them covers every
real execution.  When `dx` (or `dy`) is `0`, JS produces an infinite
distance where `ℚ` division yields `0`; the `d` field is outside every
claim. -/
def raycast (mw mh : ℤ) (tiles : List Nat) (ox oy dx dy ddx ddy : ℚ) : Option RayResult :=
  let x := ⌊ox⌋
  let y := ⌊oy⌋
  let sx : ℤ × ℚ := if dx < 0 then (-1, (ox - x) * ddx) else (1, ((x : ℚ) + 1 - ox) * ddx)
  let sy : ℤ × ℚ := if dy < 0 then (-1, (oy - y) * ddy) else (1, ((y : ℚ) + 1 - oy) * ddy)
  let st0 : DDAState := { x := x, y := y, sdx := sx.2, sdy := sy.2, side := 0 }
  match dda_loop mw mh tiles sx.1 sy.1 ddx ddy (dda_fuel mw mh sx.1 sy.1 st0) st0 with
  | some (st, v) =>
    some { d := if st.side = 0 then ((st.x : ℚ) - ox + (1 - (sx.1 : ℚ)) / 2) / dx
                else ((st.y : ℚ) - oy + (1 - (sy.1 : ℚ)) / 2) / dy,
           s := st.side, v := v }
  | none => none

/-- The per-frame state outside the simulation: an opaque simulation
state `σ` plus `last_frame`. -/
structure FrameState (σ : Type) where
  sim : σ
  last_frame : ℚ

/-- The `for (const sys of systems) sys(dt)` pipeline (part_002:1496). -/
def run_systems {σ : Type} (systems : List (ℚ → σ → σ)) (dt : ℚ) (s : σ) : σ :=
  systems.foldl (fun acc sys => sys dt acc) s

/-- Source `frame` (part_002:1489-1503): compute the delta time, record
`last_frame`, and run the system pipeline only when `dt < 0.2`.  The
trailing `requestAnimationFrame` re-schedule is outside the state. -/
def frame {σ : Type} (systems : List (ℚ → σ → σ)) (time : ℚ) (s : FrameState σ) :
    FrameState σ :=
  let dt := (time - s.last_frame) / 1000
  { sim := if dt < 0.2 then run_systems systems dt s.sim else s.sim, last_frame := time }

/-! Association-list lemmas shared by the system proofs. -/

theorem alist_get_set_self {κ α : Type} [DecidableEq κ] (l : List (κ × α)) (id : κ) (v : α) :
    alist_get (alist_set l id v) id = some v := by
  induction l with
  | nil => simp [alist_get, alist_set]
  | cons p t ih =>
    by_cases hp : p.1 = id
    · simp [alist_get, alist_set, hp]
    · simpa [alist_get, alist_set, hp] using ih

theorem alist_get_set_ne {κ α : Type} [DecidableEq κ] (l : List (κ × α)) (id j : κ) (v : α)
    (h : j ≠ id) : alist_get (alist_set l id v) j = alist_get l j := by
  induction l with
  | nil => simp [alist_get, alist_set, Ne.symm h]
  | cons p t ih =>
    by_cases hp : p.1 = id
    · simp [alist_get, alist_set, hp, Ne.symm h]
    · by_cases hj : p.1 = j
      · simp [alist_get, alist_set, hp, hj, h]
      · simpa [alist_get, alist_set, hp, hj] using ih

theorem alist_get_erase_self {κ α : Type} [DecidableEq κ] (l : List (κ × α)) (id : κ) :
    alist_get (alist_erase l id) id = none := by
  induction l with
  | nil => simp [alist_get, alist_erase]
  | cons p t ih =>
    by_cases hp : p.1 = id
    · simpa [alist_erase, hp] using ih
    · simpa [alist_get, alist_erase, hp] using ih

theorem alist_get_erase_ne {κ α : Type} [DecidableEq κ] (l : List (κ × α)) (id j : κ)
    (h : j ≠ id) : alist_get (alist_erase l id) j = alist_get l j := by
  induction l with
  | nil => simp [alist_erase]
  | cons p t ih =>
    by_cases hp : p.1 = id
    · rw [show alist_erase (p :: t) id = alist_erase t id by simp [alist_erase, hp]]
      rw [ih]
      have : ¬p.1 = j := fun hj => h (by rw [← hj, hp])
      simp [alist_get, this]
    · by_cases hj : p.1 = j
      · simp [alist_get, alist_erase, hp, hj, h]
      · simpa [alist_get, alist_erase, hp, hj] using ih

theorem alist_get_isSome_mem {κ α : Type} [DecidableEq κ] (l : List (κ × α)) (j : κ)
    (h : (alist_get l j).isSome) : j ∈ l.map Prod.fst := by
  induction l with
  | nil => simp [alist_get] at h
  | cons p t ih =>
    by_cases hp : p.1 = j
    · simp [hp]
    · simp only [alist_get, hp, if_false] at h
      exact List.mem_cons_of_mem _ (ih h)

/-! Store lemmas for the spawn claim. -/

theorem get_add_self (st : Store) (id : Nat) (key : String) (v : CompData) :
    get_entity_component (add_entity_component st id key v) id key = some v := by
  unfold add_entity_component get_entity_component
  cases hg : alist_get st key with
  | some group => rw [alist_get_set_self]; exact alist_get_set_self group id v
  | none => rw [alist_get_set_self]; exact alist_get_set_self [] id v

theorem get_add_other_key (st : Store) (id j : Nat) (key key2 : String) (v : CompData)
    (h : key2 ≠ key) :
    get_entity_component (add_entity_component st id key v) j key2 =
      get_entity_component st j key2 := by
  unfold add_entity_component get_entity_component
  cases hg : alist_get st key with
  | some group => rw [alist_get_set_ne st key key2 _ h]
  | none => rw [alist_get_set_ne st key key2 _ h]

theorem spawn_fold_preserve (rest : List (String × CompData)) (st : Store) (id j : Nat)
    (key : String) (h : key ∉ rest.map Prod.fst) :
    get_entity_component
        (rest.foldl (fun acc kv => add_entity_component acc id kv.1 kv.2) st) j key =
      get_entity_component st j key := by
  induction rest generalizing st with
  | nil => rfl
  | cons kv t ih =>
    simp only [List.map_cons, List.mem_cons] at h
    push_neg at h
    simp only [List.foldl_cons]
    rw [ih _ h.2, get_add_other_key _ _ _ _ _ _ h.1]

theorem spawn_fold_pos (prefab : List (String × CompData)) (st : Store) (id : Nat)
    (d : CompData) (hnd : (prefab.map Prod.fst).Nodup)
    (hpos : alist_get prefab "pos" = some d) :
    get_entity_component
        (prefab.foldl (fun acc kv => add_entity_component acc id kv.1 kv.2) st) id "pos" =
      some d := by
  induction prefab generalizing st with
  | nil => simp [alist_get] at hpos
  | cons kv t ih =>
    simp only [List.map_cons, List.nodup_cons] at hnd
    by_cases hk : kv.1 = "pos"
    · have hd : kv.2 = d := by
        simp only [alist_get, hk, if_pos rfl] at hpos
        exact Option.some.inj hpos
      simp only [List.foldl_cons]
      rw [spawn_fold_preserve t _ id id "pos" (by rw [← hk]; exact hnd.1), ← hk, hd]
      exact get_add_self st id kv.1 d
    · simp only [alist_get, hk, if_false] at hpos
      simp only [List.foldl_cons]
      exact ih _ hnd.2 hpos

theorem jsOr_self (a : ℚ) : jsOr a a = a := by
  unfold jsOr
  split <;> simp_all

/-- C4: for every prefab with a `pos` component, each of the `x`, `y`,
`facing` arguments of `spawn_prefab_entity` overrides the template's
default only when it is non-zero (`x || pos.x`): passing `0` keeps the
default, so spawning with literal-zero overrides produces exactly the
same store as spawning with the template's own default values. -/
theorem spawn_falsy_zero_override (prefab : List (String × CompData)) (st : Store) (id : Nat)
    (x y facing : ℚ) (p : Pos)
    (hnd : (prefab.map Prod.fst).Nodup)
    (hpos : alist_get prefab "pos" = some (CompData.pos p)) :
    get_entity_component (spawn_prefab_entity prefab id x y facing st) id "pos"
      = some (CompData.pos { x := jsOr x p.x, y := jsOr y p.y, f := jsOr facing p.f })
    ∧ jsOr 0 p.x = p.x ∧ jsOr 0 p.y = p.y ∧ jsOr 0 p.f = p.f
    ∧ (x ≠ 0 → jsOr x p.x = x) ∧ (y ≠ 0 → jsOr y p.y = y)
    ∧ (facing ≠ 0 → jsOr facing p.f = facing)
    ∧ spawn_prefab_entity prefab id 0 0 0 st = spawn_prefab_entity prefab id p.x p.y p.f st := by
  have hfold := spawn_fold_pos prefab st id (CompData.pos p) hnd hpos
  refine ⟨?_, by simp [jsOr], by simp [jsOr], by simp [jsOr],
          fun h => by simp [jsOr, h], fun h => by simp [jsOr, h],
          fun h => by simp [jsOr, h], ?_⟩
  · simp only [spawn_prefab_entity, hfold]
    exact get_add_self _ id "pos" _
  · simp only [spawn_prefab_entity, hfold]
    simp [jsOr, jsOr_self]

/-- Witness for C4: a two-component prefab spawned with a zero `x`
override and non-zero `y` override. -/
theorem spawn_falsy_zero_override_witness :
    get_entity_component
        (spawn_prefab_entity [("pos", CompData.pos ⟨1, 2, 3⟩), ("body", CompData.other 0)]
          7 0 5 0 []) 7 "pos"
      = some (CompData.pos { x := jsOr 0 1, y := jsOr 5 2, f := jsOr 0 3 }) := by
  exact (spawn_falsy_zero_override [("pos", CompData.pos ⟨1, 2, 3⟩), ("body", CompData.other 0)]
    [] 7 0 5 0 ⟨1, 2, 3⟩ (by decide) (by decide)).1

/-- C9: a frame whose measured delta time is at least 0.2 seconds runs
no system: the simulation state is unchanged (only `last_frame` is
recorded). -/
theorem frame_skips_oversized_delta {σ : Type} (systems : List (ℚ → σ → σ)) (time : ℚ)
    (s : FrameState σ) (h : (0.2 : ℚ) ≤ (time - s.last_frame) / 1000) :
    (frame systems time s).sim = s.sim ∧ (frame systems time s).last_frame = time := by
  unfold frame
  simp [not_lt.mpr h]

/-- Witness for C9: a 1-second delta skips a pipeline that would
otherwise increment the state. -/
theorem frame_skips_oversized_delta_witness :
    (0.2 : ℚ) ≤ ((1000 : ℚ) - 0) / 1000
    ∧ (frame [fun _ n => n + 1] (1000 : ℚ) ⟨(0 : ℕ), 0⟩).sim = (0 : ℕ) := by
  refine ⟨by norm_num, ?_⟩
  exact (frame_skips_oversized_delta [fun _ n => n + 1] 1000 ⟨(0 : ℕ), 0⟩ (by norm_num)).1

/-- C10: for positive-size rectangles, `rect_overlap` holds iff
`rect_intersection` has positive width and height; the intersection
never has negative extent; and both functions are symmetric. -/
theorem rect_overlap_intersection_consistent (a b : Rect) :
    (0 ≤ (rect_intersection a b).w ∧ 0 ≤ (rect_intersection a b).h)
    ∧ rect_overlap a b = rect_overlap b a
    ∧ rect_intersection a b = rect_intersection b a
    ∧ (0 < a.w → 0 < a.h → 0 < b.w → 0 < b.h →
        (rect_overlap a b = true ↔
          0 < (rect_intersection a b).w ∧ 0 < (rect_intersection a b).h)) := by
  refine ⟨⟨le_max_left 0 _, le_max_left 0 _⟩, ?_, ?_, ?_⟩
  · rw [Bool.eq_iff_iff]
    simp only [rect_overlap, Bool.and_eq_true, decide_eq_true_eq]
    tauto
  · simp [rect_intersection, min_comm, max_comm]
  · intro ha hb hc hd
    simp only [rect_overlap, rect_intersection, Bool.and_eq_true, decide_eq_true_eq,
      lt_max_iff, lt_irrefl, false_or, sub_pos, max_lt_iff, lt_min_iff]
    constructor
    · rintro ⟨⟨⟨h1, h2⟩, h3⟩, h4⟩
      exact ⟨⟨⟨by linarith, h2⟩, h1, by linarith⟩, ⟨by linarith, h4⟩, h3, by linarith⟩
    · rintro ⟨⟨⟨_, h2⟩, h3, _⟩, ⟨_, h5⟩, h6, _⟩
      exact ⟨⟨⟨h3, h2⟩, h6⟩, h5⟩

/-- Witness for C10 on two overlapping unit squares. -/
theorem rect_overlap_intersection_consistent_witness :
    (0 < (1 : ℚ) ∧ 0 < (1 : ℚ)) ∧
      (rect_overlap ⟨0, 0, 1, 1⟩ ⟨(1 : ℚ)/2, 0, 1, 1⟩ = true ↔
        0 < (rect_intersection ⟨0, 0, 1, 1⟩ ⟨(1 : ℚ)/2, 0, 1, 1⟩).w ∧
          0 < (rect_intersection ⟨0, 0, 1, 1⟩ ⟨(1 : ℚ)/2, 0, 1, 1⟩).h) := by
  refine ⟨⟨one_pos, one_pos⟩, ?_⟩
  exact (rect_overlap_intersection_consistent ⟨0, 0, 1, 1⟩ ⟨(1 : ℚ)/2, 0, 1, 1⟩).2.2.2
    one_pos one_pos one_pos one_pos

/-- The spec's wall-stop scenario world: an 8×8 map whose only wall tile
is `(1, 5)` (flat index 41), and a single 0.4×0.4 enemy-group body with
velocity `(5, 0)` and bounce `b`, centered at `(px, py)`. -/
def wall_scenario_world (px py b : ℚ) : World :=
  { map_width := 8, map_height := 8,
    map_tiles := (List.range 64).map (fun i => if i = 41 then 1 else 0),
    spatial_width := 4,
    spatial_tiles := List.replicate 16 [],
    bodies := [(1, { w := 2/5, h := 2/5, vx := 5, vy := 0, b := b, g := GROUP_ENEMY, t := 0,
                     e := 0, c := [], bb := ⟨0, 0, 0, 0⟩ })],
    positions := [(1, { x := px, y := py, f := 0 })],
    mortals := [], hazards := [] }

/-- Counterexample to C1: in the spec's exact setup — body at `(0.9, 5)`
with bounce 0, wall tile `(1, 5)`, `dt = 0.1` — the tile overlap is 0.4
wide but only 0.2 tall, so the physics tick resolves along the Y axis
and leaves `vx = 5`, not `-b*5 = 0`. -/
theorem wall_stop_scenario_counterexample :
    (alist_get (system_physics (1/10) (wall_scenario_world (9/10) 5 0)).bodies 1).map Body.vx
      = some 5 ∧ ¬ ((5 : ℚ) = -(0 : ℚ) * 5) :=
  ⟨of_decide_eq_true (by with_unfolding_all rfl), by norm_num⟩

/-- C1 amended: with the body vertically centered on the wall row —
start `(0.5, 5.5)` — one tick ends with `vx = -b*5` and the body's bbox
clear of tile `(1, 5)`, for bounce 0 and bounce 1; in the spec's
original `(0.9, 5)` start the resolution is a corner clip on the Y axis:
`vx` stays 5, though the bbox still ends clear of the tile. -/
theorem wall_stop_bounce_amended (b : ℚ) (hb : b = 0 ∨ b = 1) :
    ((alist_get (system_physics (1/10) (wall_scenario_world (1/2) (11/2) b)).bodies 1).map
        Body.vx = some (-b * 5))
    ∧ ((alist_get (system_physics (1/10) (wall_scenario_world (1/2) (11/2) b)).bodies 1).map
        (fun bd => rect_overlap bd.bb (tile_rect 1 5)) = some false)
    ∧ ((alist_get (system_physics (1/10) (wall_scenario_world (9/10) 5 b)).bodies 1).map
        Body.vx = some 5)
    ∧ ((alist_get (system_physics (1/10) (wall_scenario_world (9/10) 5 b)).bodies 1).map
        (fun bd => rect_overlap bd.bb (tile_rect 1 5)) = some false) := by
  rcases hb with h | h <;> subst h <;>
    exact ⟨of_decide_eq_true (by with_unfolding_all rfl),
           of_decide_eq_true (by with_unfolding_all rfl),
           of_decide_eq_true (by with_unfolding_all rfl),
           of_decide_eq_true (by with_unfolding_all rfl)⟩

/-- Witness for the amended C1 at bounce 1. -/
theorem wall_stop_bounce_amended_witness :
    ((1 : ℚ) = 0 ∨ (1 : ℚ) = 1)
    ∧ (alist_get (system_physics (1/10) (wall_scenario_world (1/2) (11/2) 1)).bodies 1).map
        Body.vx = some (-1 * 5) :=
  ⟨Or.inr rfl, (wall_stop_bounce_amended 1 (Or.inr rfl)).1⟩

/-- Two overlapping 1×3 enemy-group bodies near the left edge of an
empty 4×4 map: the pair-separation step pushes body 1 out of bounds. -/
def edge_pair_world : World :=
  { map_width := 4, map_height := 4,
    map_tiles := List.replicate 16 0,
    spatial_width := 2,
    spatial_tiles := List.replicate 4 [],
    bodies := [(1, { w := 1, h := 3, vx := 0, vy := 0, b := 0, g := GROUP_ENEMY, t := 0,
                     e := 0, c := [], bb := ⟨0, 0, 0, 0⟩ }),
               (2, { w := 1, h := 3, vx := 0, vy := 0, b := 0, g := GROUP_ENEMY, t := 0,
                     e := 0, c := [], bb := ⟨0, 0, 0, 0⟩ })],
    positions := [(1, { x := 1/2, y := 2, f := 0 }), (2, { x := 3/5, y := 2, f := 0 })],
    mortals := [], hazards := [] }

/-- Counterexample to C2: after a full physics tick on
`edge_pair_world`, the entity-pair resolution pushes body 1's bbox to
`x = -9/20 < 0`, so map containment does not survive the whole tick. -/
theorem map_containment_counterexample :
    (alist_get (system_physics (1/10) edge_pair_world).bodies 1).map (fun b => b.bb.x)
      = some (-(9/20)) ∧ ¬ ((0 : ℚ) ≤ -(9/20)) :=
  ⟨of_decide_eq_true (by with_unfolding_all rfl), by norm_num⟩

/-- C2 amended: map containment holds for each body at the
boundary-clamping step of the tick (for a bbox no larger than the map);
the later tile-resolution and entity-pair-resolution steps can move a
bbox back out of bounds, as `map_containment_counterexample` shows. -/
theorem clamp_body_containment (mw mh : ℤ) (body : Body)
    (hw : body.bb.w ≤ (mw : ℚ)) (hh : body.bb.h ≤ (mh : ℚ)) :
    0 ≤ (clamp_body_to_map mw mh body).bb.x
    ∧ (clamp_body_to_map mw mh body).bb.x + (clamp_body_to_map mw mh body).bb.w ≤ (mw : ℚ)
    ∧ 0 ≤ (clamp_body_to_map mw mh body).bb.y
    ∧ (clamp_body_to_map mw mh body).bb.y + (clamp_body_to_map mw mh body).bb.h ≤ (mh : ℚ) := by
  simp only [clamp_body_to_map]
  split_ifs <;> refine ⟨?_, ?_, ?_, ?_⟩ <;> (try simp) <;> linarith

/-- Witness for the amended C2 on a unit body straddling the left map
edge. -/
theorem clamp_body_containment_witness :
    ((1 : ℚ) ≤ ((4 : ℤ) : ℚ)) ∧ ((1 : ℚ) ≤ ((4 : ℤ) : ℚ)) ∧
      0 ≤ (clamp_body_to_map 4 4
        { w := 1, h := 1, vx := 0, vy := 0, b := 0, g := 2, t := 0, e := 0, c := [],
          bb := ⟨-(1/2), 1, 1, 1⟩ }).bb.x := by
  refine ⟨by norm_num, by norm_num, ?_⟩
  exact (clamp_body_containment 4 4
    { w := 1, h := 1, vx := 0, vy := 0, b := 0, g := 2, t := 0, e := 0, c := [],
      bb := ⟨-(1/2), 1, 1, 1⟩ } (by norm_num) (by norm_num)).1

/-! Lemmas for the pair-dedup claim: the ghost trace of narrow-phase
evaluations maps, hash for hash, onto the `checked` array, which never
holds a duplicate. -/

theorem hash_ids_symm (a b : Nat) : hash_ids a b = hash_ids b a := by
  simp only [hash_ids]
  split_ifs <;> omega

/-- Invariant of the pair-finding loop state. -/
def narrow_inv (s : NarrowS) : Prop :=
  s.trace.map (fun p => hash_ids p.1 p.2) = s.checked ∧ s.checked.Nodup

theorem narrow_inv_neighbor (id : Nat) (s : NarrowS) (nid : Nat) (h : narrow_inv s) :
    narrow_inv (narrow_neighbor id s nid) := by
  unfold narrow_neighbor
  by_cases h1 : nid = id
  · rw [if_pos h1]; exact h
  · rw [if_neg h1]
    dsimp only
    by_cases h2 : s.checked.contains (hash_ids id nid) = true
    · rw [if_pos h2]; exact h
    · rw [if_neg h2]
      have hmem : hash_ids id nid ∉ s.checked := by
        simpa using h2
      have hcore : (s.trace ++ [(id, nid)]).map (fun p => hash_ids p.1 p.2)
            = s.checked ++ [hash_ids id nid]
          ∧ (s.checked ++ [hash_ids id nid]).Nodup := by
        refine ⟨by simp [h.1], ?_⟩
        simp [List.nodup_append, h.2, hmem]
      split
      · split
        · exact hcore
        · exact hcore
      · exact hcore

theorem narrow_inv_foldl (id : Nat) (L : List Nat) (s : NarrowS) (h : narrow_inv s) :
    narrow_inv (L.foldl (narrow_neighbor id) s) := by
  induction L generalizing s with
  | nil => exact h
  | cons n t ih => exact ih _ (narrow_inv_neighbor id s n h)

theorem narrow_inv_body (s : NarrowS) (id : Nat) (h : narrow_inv s) :
    narrow_inv (narrow_body s id) := by
  unfold narrow_body
  split
  · exact narrow_inv_foldl id _ s h
  · exact h

theorem narrow_inv_foldl_body (L : List Nat) (s : NarrowS) (h : narrow_inv s) :
    narrow_inv (L.foldl narrow_body s) := by
  induction L generalizing s with
  | nil => exact h
  | cons i t ih => exact ih _ (narrow_inv_body s i h)

theorem narrow_inv_phase2 (w : World) : narrow_inv (phys_phase2 w) := by
  unfold phys_phase2
  exact narrow_inv_foldl_body _ _ ⟨rfl, List.nodup_nil⟩

theorem countP_le_one_of_map_nodup {α β : Type} (l : List α) (f : α → β) (q : α → Bool)
    (h : β) (hq : ∀ p, q p = true → f p = h) (hnd : (l.map f).Nodup) : l.countP q ≤ 1 := by
  induction l with
  | nil => simp
  | cons p t ih =>
    simp only [List.map_cons, List.nodup_cons] at hnd
    rw [List.countP_cons]
    cases hqp : q p with
    | false => simpa using ih hnd.2
    | true =>
      have hzero : t.countP q = 0 := by
        rw [List.countP_eq_zero]
        intro x hx hqx
        exact hnd.1 (by rw [hq p hqp, ← hq x hqx]; exact List.mem_map_of_mem f hx)
      simp [hzero, hqp]

/-- C3 amended: the `checked` dedup makes the narrow phase evaluate
each unordered pair of distinct ids at most once per tick; the
order-independent hash `max*100+min` is injective on unordered pairs
only when both ids are below the factor 100 — entity ids are unbounded,
so distinct pairs can collide (which can only cause extra skips, never a
double evaluation). -/
theorem pair_dedup_hash :
    (∀ (w : World) (a b : Nat),
      (phys_phase2 w).trace.countP
        (fun p => (p.1 == a && p.2 == b) || (p.1 == b && p.2 == a)) ≤ 1)
    ∧ (∀ a b a2 b2 : Nat, a < 100 → b < 100 → a2 < 100 → b2 < 100 →
        hash_ids a b = hash_ids a2 b2 → (a = a2 ∧ b = b2) ∨ (a = b2 ∧ b = a2)) := by
  constructor
  · intro w a b
    obtain ⟨hmap, hnd⟩ := narrow_inv_phase2 w
    refine countP_le_one_of_map_nodup _ (fun p => hash_ids p.1 p.2) _ (hash_ids a b) ?_ ?_
    · intro p hp
      dsimp only
      simp only [Bool.or_eq_true, Bool.and_eq_true, beq_iff_eq] at hp
      rcases hp with ⟨h1, h2⟩ | ⟨h1, h2⟩
      · rw [h1, h2]
      · rw [h1, h2]; exact hash_ids_symm b a
    · rw [hmap]; exact hnd
  · intro a b a2 b2 ha hb ha2 hb2 heq
    simp only [hash_ids] at heq
    split_ifs at heq <;> omega

/-- Counterexample to C3's collision-freeness: ids are not bounded by
the hash factor 100, and the distinct unordered pairs {100, 101} and
{0, 102} hash to the same value 10200. -/
theorem hash_ids_collision_counterexample :
    hash_ids 100 101 = hash_ids 0 102
    ∧ ¬ (((100 : Nat) = 0 ∧ (101 : Nat) = 102) ∨ ((100 : Nat) = 102 ∧ (101 : Nat) = 0)) := by
  decide

/-- A world whose spatial hash already holds two overlapping bodies in
two shared buckets, exercising the narrow-phase dedup. -/
def dedup_world : World :=
  { map_width := 4, map_height := 4,
    map_tiles := List.replicate 16 0,
    spatial_width := 2,
    spatial_tiles := [[1, 2], [], [1, 2], []],
    bodies := [(1, { w := 1, h := 3, vx := 0, vy := 0, b := 0, g := GROUP_ENEMY, t := 0,
                     e := 0, c := [], bb := ⟨0, 1/2, 1, 3⟩ }),
               (2, { w := 1, h := 3, vx := 0, vy := 0, b := 0, g := GROUP_ENEMY, t := 0,
                     e := 0, c := [], bb := ⟨1/10, 1/2, 1, 3⟩ })],
    positions := [(1, { x := 1/2, y := 2, f := 0 }), (2, { x := 3/5, y := 2, f := 0 })],
    mortals := [], hazards := [] }

/-- Witness for the amended C3 on `dedup_world` and on a small id
pair. -/
theorem pair_dedup_hash_witness :
    ((phys_phase2 dedup_world).trace.countP
        (fun p => (p.1 == 1 && p.2 == 2) || (p.1 == 2 && p.2 == 1)) ≤ 1)
    ∧ (((1 : Nat) = 1 ∧ (2 : Nat) = 2) ∨ ((1 : Nat) = 2 ∧ (2 : Nat) = 1)) :=
  ⟨pair_dedup_hash.1 dedup_world 1 2,
   pair_dedup_hash.2 1 2 1 2 (by decide) (by decide) (by decide) (by decide) rfl⟩

/-! Behavior-engine lemmas. -/

/-- A transition rule applies: its from-state is the current state and
its condition holds. -/
def trans_matches (s : BState) (e : ℚ) (id : Nat) (tr : BTrans) : Bool :=
  (tr.f == s) && trans_cond tr e id

theorem scan_eq_find (id : Nat) (s : BState) (e : ℚ) (ts : List BTrans) :
    scan_transitions id s e ts =
      match ts.find? (trans_matches s e id) with
      | some tr => (tr.t, 0, opt_run s.x ++ opt_run tr.t.e)
      | none => (s, e, []) := by
  induction ts with
  | nil => rfl
  | cons tr rest ih =>
    by_cases hf : tr.f = s
    · cases hc : trans_cond tr e id with
      | true =>
        have hm : trans_matches s e id tr = true := by
          simp [trans_matches, hf, hc]
        simp [scan_transitions, List.find?_cons, hm, hf, hc]
      | false =>
        have hm : trans_matches s e id tr = false := by
          simp [trans_matches, hc]
        simp [scan_transitions, List.find?_cons, hm, hf, hc, ih]
    · have hm : trans_matches s e id tr = false := by
        simp [trans_matches, hf]
      simp [scan_transitions, List.find?_cons, hm, hf, ih]

/-- C5: for an initialized behavior, one tick scans the transition
rules in declaration order; the first rule whose from-state is the
current state and whose condition holds (elapsed at least the duration,
or predicate true) fires: the old state's exit hook, then the new
state's enter hook, the new state is installed with elapsed exactly 0,
and no further rule fires that tick (the new state's update hook then
runs); with no applicable rule, the state is kept and elapsed merely
accumulates. -/
theorem behavior_first_match_transition (model : BModel) (id : Nat) (b : BehC) (dt : ℚ)
    (cur : BState) (ts : List BTrans) (hs : b.s = some cur) (ht : model.t = some ts) :
    (∀ tr, ts.find? (trans_matches cur (b.e + dt) id) = some tr →
      behavior_tick model id b dt
        = ({ s := some tr.t, e := 0 }, opt_run cur.x ++ opt_run tr.t.e ++ opt_run tr.t.u))
    ∧ (ts.find? (trans_matches cur (b.e + dt) id) = none →
      behavior_tick model id b dt = ({ s := some cur, e := b.e + dt }, opt_run cur.u)) := by
  constructor
  · intro tr hfind
    unfold behavior_tick
    rw [hs, ht]
    dsimp only
    rw [scan_eq_find, hfind]
    simp
  · intro hfind
    unfold behavior_tick
    rw [hs, ht]
    dsimp only
    rw [scan_eq_find, hfind]
    simp

/-- The `wander` state shape used by the C5 witness: enter hook 20,
exit hook 21, no update hook. -/
def wander_state : BState := ⟨0, some 20, some 21, none⟩

/-- The wander-loop model of the C5 scenario: `{from: wander, after: 3,
to: wander}`. -/
def wander_model : BModel := ⟨wander_state, some [⟨wander_state, some 3, none, wander_state⟩]⟩

/-- Witness for C5: at elapsed exactly 3 the wander loop re-enters
itself, firing exit hook 21 then enter hook 20 once and resetting
elapsed to 0. -/
theorem behavior_first_match_transition_witness :
    behavior_tick wander_model 5 ⟨some wander_state, 59/20⟩ (1/20)
      = ({ s := some wander_state, e := 0 },
         opt_run wander_state.x ++ opt_run wander_state.e ++ opt_run wander_state.u) :=
  (behavior_first_match_transition wander_model 5 ⟨some wander_state, 59/20⟩ (1/20)
    wander_state [⟨wander_state, some 3, none, wander_state⟩] rfl rfl).1
    ⟨wander_state, some 3, none, wander_state⟩ (by with_unfolding_all rfl)

/-! Hazard-system lemmas. -/

theorem alist_get_set {κ α : Type} [DecidableEq κ] (l : List (κ × α)) (id j : κ) (v : α) :
    alist_get (alist_set l id v) j = if j = id then some v else alist_get l j := by
  by_cases hj : j = id
  · subst hj; simp [alist_get_set_self]
  · simp [hj, alist_get_set_ne l id j v hj]

theorem alist_get_erase {κ α : Type} [DecidableEq κ] (l : List (κ × α)) (id j : κ) :
    alist_get (alist_erase l id) j = if j = id then none else alist_get l j := by
  by_cases hj : j = id
  · subst hj; simp [alist_get_erase_self]
  · simp [hj, alist_get_erase_ne l id j hj]

theorem remove_entity_mortals_get (w : World) (id j : Nat) :
    alist_get (remove_entity w id).mortals j = if j = id then none else alist_get w.mortals j := by
  simp [remove_entity, alist_get_erase]

theorem remove_entity_hazards_get (w : World) (id j : Nat) :
    alist_get (remove_entity w id).hazards j = if j = id then none else alist_get w.hazards j := by
  simp [remove_entity, alist_get_erase]

/-- C6: in one hazard step, only the first contact takes damage: when
the contact list is non-empty, exactly the first contact's mortal (if it
has one) loses `damage` hit points and every other entity's mortal is
untouched (beyond the hazard's own components vanishing if it
despawns); with an empty contact list no mortal changes; and the hazard
is despawned in that step if and only if it is one-shot and either
touched terrain or has a contact. -/
theorem hazard_first_contact_one_shot (w : World) (id : Nat) (hz : Hazard) (body : Body)
    (hhz : alist_get w.hazards id = some hz)
    (hbody : alist_get w.bodies id = some body) :
    ((alist_get (hazard_step w id).hazards id = none) ↔
      (hz.o = 1 ∧ (body.e = 1 ∨ body.c ≠ [])))
    ∧ (∀ cid rest, body.c = cid :: rest →
        ∀ j m, alist_get w.mortals j = some m →
          alist_get (hazard_step w id).mortals j =
            if hz.o = 1 ∧ (body.e = 1 ∨ body.c ≠ []) ∧ j = id then none
            else if j = cid then some { h := m.h - hz.d } else some m)
    ∧ (body.c = [] → ∀ j m, alist_get w.mortals j = some m →
        alist_get (hazard_step w id).mortals j =
          if hz.o = 1 ∧ body.e = 1 ∧ j = id then none else some m) := by
  refine ⟨?_, ?_, ?_⟩
  · unfold hazard_step
    rw [hhz, hbody]
    dsimp only
    by_cases hcond : hz.o = 1 ∧ (body.e = 1 ∨ body.c ≠ [])
    · rw [if_pos hcond]
      rw [remove_entity_hazards_get]
      simp [hcond]
    · rw [if_neg hcond]
      cases hc : body.c with
      | nil =>
        dsimp only
        rw [hhz]
        constructor
        · intro habs; exact absurd habs (by simp)
        · intro hco
          rcases hco.2 with he | habs2
          · exact absurd ⟨hco.1, Or.inl he⟩ hcond
          · exact absurd rfl habs2
      | cons cid rest =>
        cases hm : alist_get w.mortals cid <;>
          · dsimp only
            rw [hm]
            dsimp only
            rw [hhz]
            constructor
            · intro habs; exact absurd habs (by simp)
            · intro hco
              exact absurd ⟨hco.1, Or.inr (by rw [hc]; simp)⟩ hcond
  · intro cid rest hc j m hm
    unfold hazard_step
    rw [hhz, hbody]
    dsimp only
    simp only [hc]
    by_cases ho : hz.o = 1
    · rw [if_pos ⟨ho, Or.inr (by simp)⟩, remove_entity_mortals_get]
      by_cases hj : j = id
      · rw [if_pos hj, if_pos ⟨ho, Or.inr (by simp), hj⟩]
      · rw [if_neg hj, if_neg (fun hco => hj hco.2.2)]
        by_cases hjc : j = cid
        · subst hjc
          rw [hm]
          dsimp only
          rw [alist_get_set, if_pos rfl, if_pos rfl]
        · rw [if_neg hjc]
          cases hcm : alist_get w.mortals cid with
          | none => exact hm
          | some mcid =>
            dsimp only
            rw [alist_get_set, if_neg hjc]
            exact hm
    · rw [if_neg (fun hco => ho hco.1), if_neg (fun hco => ho hco.1)]
      by_cases hjc : j = cid
      · subst hjc
        rw [hm]
        dsimp only
        rw [alist_get_set, if_pos rfl, if_pos rfl]
      · rw [if_neg hjc]
        cases hcm : alist_get w.mortals cid with
        | none => exact hm
        | some mcid =>
          dsimp only
          rw [alist_get_set, if_neg hjc]
          exact hm
  · intro hc j m hm
    unfold hazard_step
    rw [hhz, hbody]
    dsimp only
    simp only [hc]
    by_cases hoe : hz.o = 1 ∧ body.e = 1
    · rw [if_pos ⟨hoe.1, Or.inl hoe.2⟩, remove_entity_mortals_get]
      by_cases hj : j = id
      · rw [if_pos hj, if_pos ⟨hoe.1, hoe.2, hj⟩]
      · rw [if_neg hj, if_neg (fun hco => hj hco.2.2)]
        exact hm
    · have hng : ¬(hz.o = 1 ∧ (body.e = 1 ∨ ¬(([] : List Nat) = []))) := by
        rintro ⟨h1, h2 | h2⟩
        · exact hoe ⟨h1, h2⟩
        · exact h2 rfl
      rw [if_neg hng, if_neg (fun hco => hoe ⟨hco.1, hco.2.1⟩)]
      exact hm

/-- The body of the witness hazard: a trigger in contact with entities 2
and 3 (in that order), no terrain hit. -/
def hazard_world_body : Body :=
  { w := 1, h := 1, vx := 0, vy := 0, b := 0, g := GROUP_ENEMY, t := 1, e := 0, c := [2, 3],
    bb := ⟨0, 0, 1, 1⟩ }

/-- A world with one one-shot hazard (entity 1, damage 1) touching
mortals 2 and 3. -/
def hazard_world : World :=
  { map_width := 4, map_height := 4,
    map_tiles := List.replicate 16 0,
    spatial_width := 2,
    spatial_tiles := List.replicate 4 [],
    bodies := [(1, hazard_world_body)],
    positions := [(1, { x := 1/2, y := 1/2, f := 0 })],
    mortals := [(2, ⟨3⟩), (3, ⟨5⟩)],
    hazards := [(1, ⟨1, 1⟩)] }

/-- Witness for C6: the hazard's first contact (entity 2, hp 3) is the
one that is damaged. -/
theorem hazard_first_contact_one_shot_witness :
    alist_get (hazard_step hazard_world 1).mortals 2 =
      (if (⟨1, 1⟩ : Hazard).o = 1 ∧ (hazard_world_body.e = 1 ∨ hazard_world_body.c ≠ []) ∧ 2 = 1
       then none
       else if 2 = 2 then some { h := (⟨3⟩ : Mortal).h - (⟨1, 1⟩ : Hazard).d }
       else some ⟨3⟩) :=
  (hazard_first_contact_one_shot hazard_world 1 ⟨1, 1⟩ hazard_world_body rfl rfl).2.1
    2 [3] rfl 2 ⟨3⟩ rfl

/-! Raycast termination. -/

/-- Steps remaining before the DDA traversal must exit the map along
each axis. -/
def dda_meas (mw mh step_x step_y : ℤ) (st : DDAState) : Nat :=
  (if step_x < 0 then (st.x + 1).toNat else (mw - st.x).toNat) +
    (if step_y < 0 then (st.y + 1).toNat else (mh - st.y).toNat)

theorem dda_meas_step_le (mw mh step_x step_y : ℤ) (ddx ddy : ℚ)
    (hsx : step_x = -1 ∨ step_x = 1) (hsy : step_y = -1 ∨ step_y = 1) (st : DDAState) :
    dda_meas mw mh step_x step_y (dda_step step_x step_y ddx ddy st) ≤
      dda_meas mw mh step_x step_y st := by
  unfold dda_meas dda_step
  rcases hsx with h | h <;> rcases hsy with h2 | h2 <;> subst h <;> subst h2 <;>
    simp <;> split <;> dsimp only <;> omega

theorem dda_meas_step_lt (mw mh step_x step_y : ℤ) (ddx ddy : ℚ)
    (hsx : step_x = -1 ∨ step_x = 1) (hsy : step_y = -1 ∨ step_y = 1) (st : DDAState)
    (hb : dda_in_bounds mw mh st = true) :
    dda_meas mw mh step_x step_y (dda_step step_x step_y ddx ddy st) <
      dda_meas mw mh step_x step_y st := by
  simp only [dda_in_bounds, Bool.and_eq_true, decide_eq_true_eq] at hb
  obtain ⟨⟨⟨hx0, hxw⟩, hy0⟩, hyh⟩ := hb
  unfold dda_meas dda_step
  rcases hsx with h | h <;> rcases hsy with h2 | h2 <;> subst h <;> subst h2 <;>
    simp <;> split <;> dsimp only <;> omega

theorem dda_loop_total (mw mh : ℤ) (tiles : List Nat) (step_x step_y : ℤ) (ddx ddy : ℚ)
    (hsx : step_x = -1 ∨ step_x = 1) (hsy : step_y = -1 ∨ step_y = 1) :
    ∀ (fuel : Nat) (st : DDAState),
      dda_meas mw mh step_x step_y (dda_step step_x step_y ddx ddy st) < fuel →
      ∃ stf v, dda_loop mw mh tiles step_x step_y ddx ddy fuel st = some (stf, v) ∧
        ((dda_in_bounds mw mh stf = true ∧ tiles_get tiles (idx stf.x stf.y mw) = v ∧ v ≠ 0)
          ∨ v = 1) := by
  intro fuel
  induction fuel with
  | zero => intro st h; exact absurd h (Nat.not_lt_zero _)
  | succ fuel ih =>
    intro st h
    unfold dda_loop
    dsimp only
    by_cases hb : dda_in_bounds mw mh (dda_step step_x step_y ddx ddy st) = true
    · rw [if_pos hb]
      by_cases hv : tiles_get tiles
          (idx (dda_step step_x step_y ddx ddy st).x (dda_step step_x step_y ddx ddy st).y mw) ≠ 0
      · rw [if_pos hv]
        exact ⟨dda_step step_x step_y ddx ddy st, _, rfl, Or.inl ⟨hb, rfl, hv⟩⟩
      · rw [if_neg hv]
        apply ih
        have h2 := dda_meas_step_lt mw mh step_x step_y ddx ddy hsx hsy
          (dda_step step_x step_y ddx ddy st) hb
        omega
    · rw [if_neg hb]
      exact ⟨dda_step step_x step_y ddx ddy st, 1, rfl, Or.inr rfl⟩

/-- C8: for every origin, direction and (abstracted) delta-distance
pair, `raycast` terminates: it returns a result whose tile value `v` is
either a non-zero tile read inside the map bounds or the implicit wall
value 1 reported when the traversal steps outside the map. -/
theorem raycast_terminates (mw mh : ℤ) (tiles : List Nat) (ox oy dx dy ddx ddy : ℚ) :
    ∃ r, raycast mw mh tiles ox oy dx dy ddx ddy = some r ∧
      ((∃ x y : ℤ, 0 ≤ x ∧ x < mw ∧ 0 ≤ y ∧ y < mh ∧
          tiles_get tiles (idx x y mw) = r.v ∧ r.v ≠ 0) ∨ r.v = 1) := by
  unfold raycast
  dsimp only
  by_cases hdx : dx < 0 <;> by_cases hdy : dy < 0
  · rw [if_pos hdx, if_pos hdy]
    dsimp only
    obtain ⟨stf, v, heq, hpost⟩ :=
      dda_loop_total mw mh tiles (-1) (-1) ddx ddy (Or.inl rfl) (Or.inl rfl)
        (dda_fuel mw mh (-1) (-1)
          { x := ⌊ox⌋, y := ⌊oy⌋, sdx := (ox - (⌊ox⌋ : ℚ)) * ddx,
            sdy := (oy - (⌊oy⌋ : ℚ)) * ddy, side := 0 })
        { x := ⌊ox⌋, y := ⌊oy⌋, sdx := (ox - (⌊ox⌋ : ℚ)) * ddx,
          sdy := (oy - (⌊oy⌋ : ℚ)) * ddy, side := 0 }
        (Nat.lt_succ_of_le (dda_meas_step_le mw mh (-1) (-1) ddx ddy
          (Or.inl rfl) (Or.inl rfl) _))
    rw [heq]
    refine ⟨_, rfl, ?_⟩
    rcases hpost with ⟨hb, hv, hnz⟩ | h1
    · left
      simp only [dda_in_bounds, Bool.and_eq_true, decide_eq_true_eq] at hb
      exact ⟨stf.x, stf.y, hb.1.1.1, hb.1.1.2, hb.1.2, hb.2, hv, hnz⟩
    · right; exact h1
  · rw [if_pos hdx, if_neg hdy]
    dsimp only
    obtain ⟨stf, v, heq, hpost⟩ :=
      dda_loop_total mw mh tiles (-1) 1 ddx ddy (Or.inl rfl) (Or.inr rfl)
        (dda_fuel mw mh (-1) 1
          { x := ⌊ox⌋, y := ⌊oy⌋, sdx := (ox - (⌊ox⌋ : ℚ)) * ddx,
            sdy := ((⌊oy⌋ : ℚ) + 1 - oy) * ddy, side := 0 })
        { x := ⌊ox⌋, y := ⌊oy⌋, sdx := (ox - (⌊ox⌋ : ℚ)) * ddx,
          sdy := ((⌊oy⌋ : ℚ) + 1 - oy) * ddy, side := 0 }
        (Nat.lt_succ_of_le (dda_meas_step_le mw mh (-1) 1 ddx ddy
          (Or.inl rfl) (Or.inr rfl) _))
    rw [heq]
    refine ⟨_, rfl, ?_⟩
    rcases hpost with ⟨hb, hv, hnz⟩ | h1
    · left
      simp only [dda_in_bounds, Bool.and_eq_true, decide_eq_true_eq] at hb
      exact ⟨stf.x, stf.y, hb.1.1.1, hb.1.1.2, hb.1.2, hb.2, hv, hnz⟩
    · right; exact h1
  · rw [if_neg hdx, if_pos hdy]
    dsimp only
    obtain ⟨stf, v, heq, hpost⟩ :=
      dda_loop_total mw mh tiles 1 (-1) ddx ddy (Or.inr rfl) (Or.inl rfl)
        (dda_fuel mw mh 1 (-1)
          { x := ⌊ox⌋, y := ⌊oy⌋, sdx := ((⌊ox⌋ : ℚ) + 1 - ox) * ddx,
            sdy := (oy - (⌊oy⌋ : ℚ)) * ddy, side := 0 })
        { x := ⌊ox⌋, y := ⌊oy⌋, sdx := ((⌊ox⌋ : ℚ) + 1 - ox) * ddx,
          sdy := (oy - (⌊oy⌋ : ℚ)) * ddy, side := 0 }
        (Nat.lt_succ_of_le (dda_meas_step_le mw mh 1 (-1) ddx ddy
          (Or.inr rfl) (Or.inl rfl) _))
    rw [heq]
    refine ⟨_, rfl, ?_⟩
    rcases hpost with ⟨hb, hv, hnz⟩ | h1
    · left
      simp only [dda_in_bounds, Bool.and_eq_true, decide_eq_true_eq] at hb
      exact ⟨stf.x, stf.y, hb.1.1.1, hb.1.1.2, hb.1.2, hb.2, hv, hnz⟩
    · right; exact h1
  · rw [if_neg hdx, if_neg hdy]
    dsimp only
    obtain ⟨stf, v, heq, hpost⟩ :=
      dda_loop_total mw mh tiles 1 1 ddx ddy (Or.inr rfl) (Or.inr rfl)
        (dda_fuel mw mh 1 1
          { x := ⌊ox⌋, y := ⌊oy⌋, sdx := ((⌊ox⌋ : ℚ) + 1 - ox) * ddx,
            sdy := ((⌊oy⌋ : ℚ) + 1 - oy) * ddy, side := 0 })
        { x := ⌊ox⌋, y := ⌊oy⌋, sdx := ((⌊ox⌋ : ℚ) + 1 - ox) * ddx,
          sdy := ((⌊oy⌋ : ℚ) + 1 - oy) * ddy, side := 0 }
        (Nat.lt_succ_of_le (dda_meas_step_le mw mh 1 1 ddx ddy
          (Or.inr rfl) (Or.inr rfl) _))
    rw [heq]
    refine ⟨_, rfl, ?_⟩
    rcases hpost with ⟨hb, hv, hnz⟩ | h1
    · left
      simp only [dda_in_bounds, Bool.and_eq_true, decide_eq_true_eq] at hb
      exact ⟨stf.x, stf.y, hb.1.1.1, hb.1.1.2, hb.1.2, hb.2, hv, hnz⟩
    · right; exact h1

/-! Bbox-invariant lemmas: every mutation of a body during the physics
tick preserves its size fields, and every position write is immediately
followed by a bounding-box recomputation (or is itself derived from the
bounding box). -/

/-- A body and a position satisfy the bbox invariant. -/
def good (b : Body) (p : Pos) : Prop :=
  b.bb = { x := p.x - b.w / 2, y := p.y - b.h / 2, w := b.w, h := b.h }

/-- Two bodies agree on size and bounding box (the parts the invariant
reads). -/
def same_shape (b2 b1 : Body) : Prop :=
  b2.w = b1.w ∧ b2.h = b1.h ∧ b2.bb.w = b1.bb.w ∧ b2.bb.h = b1.bb.h

theorem same_shape_refl (b : Body) : same_shape b b :=
  ⟨rfl, rfl, rfl, rfl⟩

theorem same_shape_trans {b3 b2 b1 : Body} (h2 : same_shape b3 b2) (h1 : same_shape b2 b1) :
    same_shape b3 b1 :=
  ⟨h2.1.trans h1.1, h2.2.1.trans h1.2.1, h2.2.2.1.trans h1.2.2.1, h2.2.2.2.trans h1.2.2.2⟩

theorem rect_eq_of_fields (a b : Rect) (hx : a.x = b.x) (hy : a.y = b.y) (hw : a.w = b.w)
    (hh : a.h = b.h) : a = b := by
  cases a; cases b; simp_all

theorem resolve_tile_shape (b : Body) (t : TileHit) : same_shape (resolve_tile b t) b := by
  unfold resolve_tile
  dsimp only
  split_ifs <;> exact ⟨rfl, rfl, rfl, rfl⟩

theorem foldl_resolve_tile_shape (ts : List TileHit) (b : Body) :
    same_shape (ts.foldl resolve_tile b) b := by
  induction ts generalizing b with
  | nil => exact same_shape_refl b
  | cons t rest ih => exact same_shape_trans (ih (resolve_tile b t)) (resolve_tile_shape b t)

theorem clamp_body_shape (mw mh : ℤ) (b : Body) :
    same_shape (clamp_body_to_map mw mh b) b := by
  unfold clamp_body_to_map
  dsimp only
  split_ifs <;> exact ⟨rfl, rfl, rfl, rfl⟩

theorem phys_tile_resolve_shape (w : World) (b : Body) :
    same_shape (phys_tile_resolve w b) b := by
  unfold phys_tile_resolve
  dsimp only
  refine same_shape_trans (foldl_resolve_tile_shape _ _) ?_
  split <;> exact ⟨rfl, rfl, rfl, rfl⟩

theorem insert_spatial_fields (id : Nat) (bb : Rect) (w : World) :
    (insert_spatial_bounds id bb w).bodies = w.bodies ∧
    (insert_spatial_bounds id bb w).positions = w.positions :=
  ⟨rfl, rfl⟩

theorem phys_move_body_good (dt : ℚ) (w : World) (id : Nat) :
    ∀ b p, alist_get (phys_move_body dt w id).bodies id = some b →
      alist_get (phys_move_body dt w id).positions id = some p → good b p := by
  intro b p hb hp
  unfold phys_move_body at hb hp
  cases hb0 : alist_get w.bodies id with
  | none =>
    rw [hb0] at hb
    dsimp only at hb
    exact absurd (hb0.symm.trans hb) (by simp)
  | some body0 =>
    cases hp0 : alist_get w.positions id with
    | none =>
      rw [hb0, hp0] at hb hp
      dsimp only at hp
      exact absurd (hp0.symm.trans hp) (by simp)
    | some pos0 =>
      rw [hb0, hp0] at hb hp
      dsimp only at hb hp
      rw [(insert_spatial_fields _ _ _).1, alist_get_set_self] at hb
      rw [(insert_spatial_fields _ _ _).2, alist_get_set_self] at hp
      obtain rfl : _ = b := Option.some.inj hb
      obtain rfl : _ = p := Option.some.inj hp
      have hshape : same_shape
          (phys_tile_resolve w (clamp_body_to_map w.map_width w.map_height
            (update_bounding_box { pos0 with
                x := pos0.x + ({ body0 with e := 0, c := [] } : Body).vx * dt,
                y := pos0.y + ({ body0 with e := 0, c := [] } : Body).vy * dt }
              { body0 with e := 0, c := [] })))
          (update_bounding_box { pos0 with
              x := pos0.x + ({ body0 with e := 0, c := [] } : Body).vx * dt,
              y := pos0.y + ({ body0 with e := 0, c := [] } : Body).vy * dt }
            { body0 with e := 0, c := [] }) :=
        same_shape_trans (phys_tile_resolve_shape _ _) (clamp_body_shape _ _ _)
      unfold good
      refine rect_eq_of_fields _ _ ?_ ?_ ?_ ?_
      · dsimp only
        ring
      · dsimp only
        ring
      · exact hshape.2.2.1.trans (by rw [hshape.1]; rfl)
      · exact hshape.2.2.2.trans (by rw [hshape.2.1]; rfl)

theorem phys_move_body_other (dt : ℚ) (w : World) (id j : Nat) (hj : j ≠ id) :
    alist_get (phys_move_body dt w id).bodies j = alist_get w.bodies j ∧
    alist_get (phys_move_body dt w id).positions j = alist_get w.positions j := by
  unfold phys_move_body
  cases hb0 : alist_get w.bodies id with
  | none => exact ⟨rfl, rfl⟩
  | some body0 =>
    cases hp0 : alist_get w.positions id with
    | none => exact ⟨rfl, rfl⟩
    | some pos0 =>
      dsimp only
      rw [(insert_spatial_fields _ _ _).1, (insert_spatial_fields _ _ _).2]
      exact ⟨alist_get_set_ne _ _ _ _ hj, alist_get_set_ne _ _ _ _ hj⟩

theorem phase1_fold_spec (dt : ℚ) (L : List Nat) :
    ∀ (w : World),
      (∀ j, j ∉ L →
        alist_get (L.foldl (phys_move_body dt) w).bodies j = alist_get w.bodies j ∧
        alist_get (L.foldl (phys_move_body dt) w).positions j = alist_get w.positions j)
      ∧ (∀ j, j ∈ L → ∀ b p,
        alist_get (L.foldl (phys_move_body dt) w).bodies j = some b →
        alist_get (L.foldl (phys_move_body dt) w).positions j = some p → good b p) := by
  induction L with
  | nil =>
    intro w
    exact ⟨fun j _ => ⟨rfl, rfl⟩, fun j hj => absurd hj (List.not_mem_nil j)⟩
  | cons i t ih =>
    intro w
    simp only [List.foldl_cons]
    constructor
    · intro j hj
      have hj1 : j ≠ i := fun h => hj (h ▸ List.mem_cons_self i t)
      have hj2 : j ∉ t := fun h => hj (List.mem_cons_of_mem i h)
      have h1 := (ih (phys_move_body dt w i)).1 j hj2
      have h2 := phys_move_body_other dt w i j hj1
      exact ⟨h1.1.trans h2.1, h1.2.trans h2.2⟩
    · intro j hj b p hb hp
      by_cases hjt : j ∈ t
      · exact (ih _).2 j hjt b p hb hp
      · have hji : j = i := by
          rcases List.mem_cons.mp hj with h | h
          · exact h
          · exact absurd h hjt
        subst hji
        have hunch := (ih (phys_move_body dt w j)).1 j hjt
        rw [hunch.1] at hb
        rw [hunch.2] at hp
        exact phys_move_body_good dt w j b p hb hp

theorem phys_phase1_good (dt : ℚ) (w : World) :
    ∀ j b p, alist_get (phys_phase1 dt w).bodies j = some b →
      alist_get (phys_phase1 dt w).positions j = some p → good b p := by
  intro j b p hb hp
  unfold phys_phase1 at hb hp
  dsimp only at hb hp
  by_cases hjL : j ∈ (clear_spatial_map w).bodies.map Prod.fst
  · exact (phase1_fold_spec dt _ _).2 j hjL b p hb hp
  · have hunch := (phase1_fold_spec dt ((clear_spatial_map w).bodies.map Prod.fst)
      (clear_spatial_map w)).1 j hjL
    rw [hunch.1] at hb
    exact absurd (alist_get_isSome_mem _ j (by rw [hb]; rfl)) hjL

/-- The size-and-bbox view of a body read by the invariant. -/
def body_core (b : Body) : ℚ × ℚ × Rect :=
  (b.w, b.h, b.bb)

theorem push_contact_core (w : World) (id nid j : Nat) :
    (alist_get (push_contact w id nid).bodies j).map body_core
      = (alist_get w.bodies j).map body_core ∧
    (push_contact w id nid).positions = w.positions := by
  unfold push_contact
  cases hb : alist_get w.bodies id with
  | none => exact ⟨rfl, rfl⟩
  | some b0 =>
    dsimp only
    refine ⟨?_, rfl⟩
    rw [alist_get_set]
    by_cases hj : j = id
    · subst hj
      rw [if_pos rfl, hb]
      rfl
    · rw [if_neg hj]

theorem narrow_neighbor_core (id : Nat) (s : NarrowS) (nid j : Nat) :
    (alist_get (narrow_neighbor id s nid).w.bodies j).map body_core
      = (alist_get s.w.bodies j).map body_core ∧
    (narrow_neighbor id s nid).w.positions = s.w.positions := by
  unfold narrow_neighbor
  by_cases h1 : nid = id
  · rw [if_pos h1]; exact ⟨rfl, rfl⟩
  · rw [if_neg h1]
    by_cases h2 : s.checked.contains (hash_ids id nid) = true
    · rw [if_pos h2]; exact ⟨rfl, rfl⟩
    · rw [if_neg h2]
      dsimp only
      split
      · split
        · have ha := push_contact_core (push_contact s.w id nid) nid id j
          have hb := push_contact_core s.w id nid j
          exact ⟨ha.1.trans hb.1, ha.2.trans hb.2⟩
        · exact ⟨rfl, rfl⟩
      · exact ⟨rfl, rfl⟩

theorem narrow_foldl_core (id : Nat) (L : List Nat) :
    ∀ (s : NarrowS) (j : Nat),
      (alist_get (L.foldl (narrow_neighbor id) s).w.bodies j).map body_core
        = (alist_get s.w.bodies j).map body_core ∧
      (L.foldl (narrow_neighbor id) s).w.positions = s.w.positions := by
  induction L with
  | nil => exact fun s j => ⟨rfl, rfl⟩
  | cons n t ih =>
    intro s j
    simp only [List.foldl_cons]
    have h1 := ih (narrow_neighbor id s n) j
    have h2 := narrow_neighbor_core id s n j
    exact ⟨h1.1.trans h2.1, h1.2.trans h2.2⟩

theorem narrow_body_core (s : NarrowS) (id j : Nat) :
    (alist_get (narrow_body s id).w.bodies j).map body_core
      = (alist_get s.w.bodies j).map body_core ∧
    (narrow_body s id).w.positions = s.w.positions := by
  unfold narrow_body
  split
  · exact narrow_foldl_core id _ s j
  · exact ⟨rfl, rfl⟩

theorem narrow_foldl_body_core (L : List Nat) :
    ∀ (s : NarrowS) (j : Nat),
      (alist_get (L.foldl narrow_body s).w.bodies j).map body_core
        = (alist_get s.w.bodies j).map body_core ∧
      (L.foldl narrow_body s).w.positions = s.w.positions := by
  induction L with
  | nil => exact fun s j => ⟨rfl, rfl⟩
  | cons i t ih =>
    intro s j
    simp only [List.foldl_cons]
    have h1 := ih (narrow_body s i) j
    have h2 := narrow_body_core s i j
    exact ⟨h1.1.trans h2.1, h1.2.trans h2.2⟩

theorem phys_phase2_core (w : World) (j : Nat) :
    (alist_get (phys_phase2 w).w.bodies j).map body_core
      = (alist_get w.bodies j).map body_core ∧
    (phys_phase2 w).w.positions = w.positions := by
  unfold phys_phase2
  exact narrow_foldl_body_core _ _ j

/-- Every body/position pair present in the world satisfies the bbox
invariant. -/
def all_good (w : World) : Prop :=
  ∀ j b p, alist_get w.bodies j = some b → alist_get w.positions j = some p → good b p

theorem good_update (p : Pos) (b : Body) : good (update_bounding_box p b) p := rfl

theorem resolve_pair_good (w : World) (pr : Nat × Nat) (h : all_good w) :
    all_good (resolve_pair w pr) := by
  unfold resolve_pair
  cases hba : alist_get w.bodies pr.1 with
  | none => exact h
  | some body_a =>
    cases hbb : alist_get w.bodies pr.2 with
    | none => exact h
    | some body_b =>
      cases hpa : alist_get w.positions pr.1 with
      | none => exact h
      | some pos_a =>
        cases hpb : alist_get w.positions pr.2 with
        | none => exact h
        | some pos_b =>
          dsimp only
          split
          · intro j b p hbj hpj
            dsimp only at hbj hpj
            rw [alist_get_set] at hbj hpj
            rw [alist_get_set] at hbj hpj
            by_cases hj2 : j = pr.2
            · rw [if_pos hj2] at hbj hpj
              obtain rfl := Option.some.inj hbj
              obtain rfl := Option.some.inj hpj
              exact good_update _ _
            · rw [if_neg hj2] at hbj hpj
              by_cases hj1 : j = pr.1
              · rw [if_pos hj1] at hbj hpj
                obtain rfl := Option.some.inj hbj
                obtain rfl := Option.some.inj hpj
                exact good_update _ _
              · rw [if_neg hj1] at hbj hpj
                exact h j b p hbj hpj
          · intro j b p hbj hpj
            dsimp only at hbj hpj
            rw [alist_get_set] at hbj hpj
            rw [alist_get_set] at hbj hpj
            by_cases hj2 : j = pr.2
            · rw [if_pos hj2] at hbj hpj
              obtain rfl := Option.some.inj hbj
              obtain rfl := Option.some.inj hpj
              exact good_update _ _
            · rw [if_neg hj2] at hbj hpj
              by_cases hj1 : j = pr.1
              · rw [if_pos hj1] at hbj hpj
                obtain rfl := Option.some.inj hbj
                obtain rfl := Option.some.inj hpj
                exact good_update _ _
              · rw [if_neg hj1] at hbj hpj
                exact h j b p hbj hpj

theorem foldl_resolve_pair_good (pairs : List (Nat × Nat)) :
    ∀ (w : World), all_good w → all_good (pairs.foldl resolve_pair w) := by
  induction pairs with
  | nil => exact fun w h => h
  | cons pr t ih =>
    intro w h
    simp only [List.foldl_cons]
    exact ih _ (resolve_pair_good w pr h)

/-- C7: after a full physics tick, every entity that has both a body
and a position satisfies `bbox = (pos.x - w/2, pos.y - h/2, w, h)`
exactly: the per-body pass syncs the position from the resolved bbox,
the pair-finding pass only touches contact lists, and the pair
resolution recomputes both bboxes after moving the positions. -/
theorem bbox_invariant_after_tick (dt : ℚ) (w : World) :
    ∀ id b p, alist_get (system_physics dt w).bodies id = some b →
      alist_get (system_physics dt w).positions id = some p →
      b.bb = { x := p.x - b.w / 2, y := p.y - b.h / 2, w := b.w, h := b.h } := by
  have h1 : all_good (phys_phase1 dt w) := phys_phase1_good dt w
  have h2 : all_good (phys_phase2 (phys_phase1 dt w)).w := by
    intro j b p hb hp
    have hc := phys_phase2_core (phys_phase1 dt w) j
    rw [hc.2] at hp
    cases hb1 : alist_get (phys_phase1 dt w).bodies j with
    | none =>
      rw [hb, hb1] at hc
      exact absurd hc.1 (by simp)
    | some b1 =>
      have hcore : body_core b = body_core b1 := by
        have := hc.1
        rw [hb, hb1] at this
        exact Option.some.inj this
      have hgood := h1 j b1 p hb1 hp
      obtain ⟨hw, hh, hbbeq⟩ : b.w = b1.w ∧ b.h = b1.h ∧ b.bb = b1.bb := by
        have h' := hcore
        simp only [body_core, Prod.mk.injEq] at h'
        exact ⟨h'.1, h'.2.1, h'.2.2⟩
      unfold good at hgood ⊢
      rw [hbbeq, hw, hh]
      exact hgood
  have h3 : all_good (system_physics dt w) := by
    unfold system_physics
    dsimp only
    exact foldl_resolve_pair_good _ _ h2
  exact h3

/-- A single moving body on an empty 4×4 map, for the bbox-invariant
witness. -/
def bbox_world : World :=
  { map_width := 4, map_height := 4,
    map_tiles := List.replicate 16 0,
    spatial_width := 2,
    spatial_tiles := List.replicate 4 [],
    bodies := [(3, { w := 1, h := 1, vx := 1, vy := 0, b := 0, g := GROUP_ENEMY, t := 0,
                     e := 0, c := [], bb := ⟨0, 0, 0, 0⟩ })],
    positions := [(3, { x := 2, y := 2, f := 0 })],
    mortals := [], hazards := [] }

/-- Witness for C7 on `bbox_world` after one tick: the moved body ends
at `(2.1, 2)` with bbox `(1.6, 1.5, 1, 1)`, which satisfies the
invariant. -/
theorem bbox_invariant_after_tick_witness :
    ({ w := 1, h := 1, vx := 1, vy := 0, b := 0, g := GROUP_ENEMY, t := 0, e := 0, c := [],
        bb := ⟨8/5, 3/2, 1, 1⟩ } : Body).bb
      = { x := ({ x := 21/10, y := 2, f := 0 } : Pos).x
            - ({ w := 1, h := 1, vx := 1, vy := 0, b := 0, g := GROUP_ENEMY, t := 0, e := 0,
                 c := [], bb := ⟨8/5, 3/2, 1, 1⟩ } : Body).w / 2,
          y := ({ x := 21/10, y := 2, f := 0 } : Pos).y
            - ({ w := 1, h := 1, vx := 1, vy := 0, b := 0, g := GROUP_ENEMY, t := 0, e := 0,
                 c := [], bb := ⟨8/5, 3/2, 1, 1⟩ } : Body).h / 2,
          w := ({ w := 1, h := 1, vx := 1, vy := 0, b := 0, g := GROUP_ENEMY, t := 0, e := 0,
                  c := [], bb := ⟨8/5, 3/2, 1, 1⟩ } : Body).w,
          h := ({ w := 1, h := 1, vx := 1, vy := 0, b := 0, g := GROUP_ENEMY, t := 0, e := 0,
                  c := [], bb := ⟨8/5, 3/2, 1, 1⟩ } : Body).h } :=
  bbox_invariant_after_tick (1/10) bbox_world 3
    { w := 1, h := 1, vx := 1, vy := 0, b := 0, g := GROUP_ENEMY, t := 0, e := 0, c := [],
      bb := ⟨8/5, 3/2, 1, 1⟩ }
    { x := 21/10, y := 2, f := 0 }
    (of_decide_eq_true (by with_unfolding_all rfl))
    (of_decide_eq_true (by with_unfolding_all rfl))

end Ganymede
